import Mathlib

/-!
Verification of the Step Functions POC pipeline repository.

This file shallowly embeds the repository's Lambda handlers and its
flatten-and-serialize routine (`convertToCSV` in `prepareDataToFiles`,
shipped here as `src/unnamed/part_000`) into Lean, and proves or refutes
the specification's claims about them.

JavaScript runtime values that can occur in the handlers' data flow are
modelled by the inductive type `Json` (JSON values); `undefined` is
modelled as `Option.none` where it can arise.  Machine behaviour that the
handlers rely on — `for ... in` enumeration order, property access,
`String.prototype.split`, `Array.prototype.join`, `JSON.stringify` — is
modelled by explicit executable functions below, each annotated with the
JavaScript construct it embeds.
-/

/-- A JSON value as manipulated by the handlers.  JavaScript object fields
are kept as an insertion-ordered association list, matching `for ... in`
enumeration order for string keys. -/
inductive Json where
  | null
  | bool (b : Bool)
  | num (n : Int)
  | str (s : String)
  | arr (elems : List Json)
  | obj (fields : List (String × Json))

/-- Test for the object constructor, used to state root-shape hypotheses. -/
def Json.isObj : Json → Bool
  | .obj _ => true
  | _ => false

/-- Test for the `null` value, used to state the non-throwing domain of the
handlers' `connectorParams.<field>` log reads. -/
def Json.isNull : Json → Bool
  | .null => true
  | _ => false

/-- Embeds the JavaScript test `typeof v === 'object' && v !== null` used by
`convertToCSV`'s `flattenObject` to decide whether to recurse.  Arrays pass
the test; `null` has `typeof 'object'` but fails the `!== null` guard. -/
def objectLike : Json → Bool
  | .obj _ => true
  | .arr _ => true
  | _ => false

/-- Embeds the template literal `prefix ? `${prefix}.${key}` : key` from
`flattenObject`: the empty string is falsy in JavaScript. -/
def joinKey (pre k : String) : String :=
  if pre = "" then k else pre ++ "." ++ k

/-- Embeds `Set.prototype.add` followed by `Array.from`: a JavaScript `Set`
keeps first-insertion order and drops duplicates. -/
def insertKey (acc : List String) (k : String) : List String :=
  if k ∈ acc then acc else acc ++ [k]

/-- First-match association lookup: JavaScript own-property access on a plain
object (keys of a real JS object are unique, so first match is the match). -/
def lookupFirst : List (String × Json) → String → Option Json
  | [], _ => none
  | (k', v') :: rest, k => if k' = k then some v' else lookupFirst rest k

/-- Embeds JavaScript property access `v[part]` for a string key on a JSON
value: objects use own-property lookup; arrays expose canonical numeric
indices and `length`; strings expose character indices and `length`;
primitives have no own properties (the access yields `undefined`, here
`none`). -/
def jsIndex : Json → String → Option Json
  | .obj fs, k => lookupFirst fs k
  | .arr xs, k =>
      if k = "length" then some (.num xs.length)
      else match k.toNat? with
        | some i => if toString i = k then xs.get? i else none
        | none => none
  | .str s, k =>
      if k = "length" then some (.num s.length)
      else match k.toNat? with
        | some i =>
            if toString i = k then (s.data.get? i).map (fun c => Json.str (String.mk [c]))
            else none
        | none => none
  | _, _ => none

/-- A JavaScript value that may be `undefined` (`none`). -/
abbrev JsVal := Option Json

/-- Embeds JavaScript property access `v.k` including its throw behaviour:
reading a property of `undefined` or `null` throws a `TypeError`; on any
other value it yields the property (possibly `undefined`). -/
def jsGetProp (v : JsVal) (k : String) : Except String JsVal :=
  match v with
  | none => .error ("Cannot read properties of undefined (reading '" ++ k ++ "')")
  | some .null => .error ("Cannot read properties of null (reading '" ++ k ++ "')")
  | some j => .ok (jsIndex j k)

/-- Embeds `String.prototype.split(sep)` for a one-character separator:
`"a..b".split('.')` is `["a","","b"]` and `"".split('.')` is `[""]`. -/
def jsSplit (c : Char) (s : String) : List String :=
  (s.data.splitOn c).map (fun l => String.mk l)

/-- Embeds `Array.prototype.join(sep)` on an array of strings. -/
def jsJoin (sep : String) : List String → String
  | [] => ""
  | [a] => a
  | a :: rest => a ++ sep ++ jsJoin sep rest

/-- Embeds the reduction `path.split('.').reduce((acc, part) => acc?.[part], obj)`
from `convertToCSV`'s `getValue`: a left fold where optional chaining
propagates `undefined`/`null` (both collapse to `none`). -/
def reducePath : Option Json → List String → Option Json
  | acc, [] => acc
  | acc, part :: rest =>
      reducePath (acc.bind (fun v => jsIndex v part)) rest

mutual
/-- Embeds JavaScript `String(v)` as used by `Array.prototype.join` when it
stringifies array elements; `null` elements render as the empty string in a
join, arrays render as their comma-join, objects as `[object Object]`. -/
def jsToString : Json → String
  | .null => ""
  | .bool b => cond b "true" "false"
  | .num n => toString n
  | .str s => s
  | .arr xs => jsToStringElems xs
  | .obj _ => "[object Object]"

/-- Comma-join of array elements under JavaScript `String(v)`. -/
def jsToStringElems : List Json → String
  | [] => ""
  | [v] => jsToString v
  | v :: v' :: rest => jsToString v ++ "," ++ jsToStringElems (v' :: rest)
end

/-- Renders one cell of the CSV data row: `getValue` ends with `?? ''`, so a
resolved `undefined` or `null` renders as the empty string, and any other
resolved value is stringified by `Array.prototype.join`. -/
def renderCell : Option Json → String
  | none => ""
  | some .null => ""
  | some v => jsToString v

/-- Hexadecimal digit for `\uXXXX` escapes in `JSON.stringify`. -/
def hexDigit (n : Nat) : Char :=
  if n < 10 then Char.ofNat ('0'.toNat + n) else Char.ofNat ('a'.toNat + (n - 10))

/-- Embeds the character escaping of `JSON.stringify` for string values. -/
def jsonEscapeChar (c : Char) : List Char :=
  if c = '"' then ['\\', '"']
  else if c = '\\' then ['\\', '\\']
  else if c = '\n' then ['\\', 'n']
  else if c = '\r' then ['\\', 'r']
  else if c = '\t' then ['\\', 't']
  else if c.toNat = 8 then ['\\', 'b']
  else if c.toNat = 12 then ['\\', 'f']
  else if c.toNat < 32 then ['\\', 'u', '0', '0', hexDigit (c.toNat / 16), hexDigit (c.toNat % 16)]
  else [c]

/-- Embeds `JSON.stringify` quoting of a string. -/
def jsonQuote (s : String) : String :=
  String.mk ('"' :: (s.data.flatMap jsonEscapeChar) ++ ['"'])

mutual
/-- Embeds `JSON.stringify` on a JSON value (no indentation argument). -/
def jsonStringify : Json → String
  | .null => "null"
  | .bool b => cond b "true" "false"
  | .num n => toString n
  | .str s => jsonQuote s
  | .arr xs => "[" ++ jsonStringifyElems xs ++ "]"
  | .obj fs => "\x7b" ++ jsonStringifyFields fs ++ "\x7d"

/-- Elements of an array under `JSON.stringify`, comma separated. -/
def jsonStringifyElems : List Json → String
  | [] => ""
  | [v] => jsonStringify v
  | v :: v' :: rest => jsonStringify v ++ "," ++ jsonStringifyElems (v' :: rest)

/-- Fields of an object under `JSON.stringify`, comma separated. -/
def jsonStringifyFields : List (String × Json) → String
  | [] => ""
  | [(k, v)] => jsonQuote k ++ ":" ++ jsonStringify v
  | (k, v) :: f :: rest => jsonQuote k ++ ":" ++ jsonStringify v ++ "," ++ jsonStringifyFields (f :: rest)
end

mutual
/-- Embeds `flattenObject(obj, prefix)` from `convertToCSV`: a `for ... in`
walk that recurses into values passing `typeof v === 'object' && v !== null`
and records each other value's dotted path into the insertion-ordered key
set.  `for ... in` over an object yields its keys, over an array its
indices, over a string its character indices, and over any other primitive
(or `null`) nothing. -/
def flattenObject : Json → String → List String → List String
  | .obj fs, pre, acc => flattenFields fs pre acc
  | .arr xs, pre, acc => flattenElems xs 0 pre acc
  | .str s, pre, acc =>
      (List.range s.length).foldl (fun a i => insertKey a (joinKey pre (toString i))) acc
  | _, _, acc => acc

/-- Walk of the `for ... in` body of `flattenObject` over an object's fields. -/
def flattenFields : List (String × Json) → String → List String → List String
  | [], _, acc => acc
  | (k, v) :: rest, pre, acc =>
      flattenFields rest pre
        (if objectLike v then flattenObject v (joinKey pre k) acc
         else insertKey acc (joinKey pre k))

/-- Walk of the `for ... in` body of `flattenObject` over an array's elements, whose
keys are the decimal index strings. -/
def flattenElems : List Json → Nat → String → List String → List String
  | [], _, _, acc => acc
  | v :: rest, i, pre, acc =>
      flattenElems rest (i + 1) pre
        (if objectLike v then flattenObject v (joinKey pre (toString i)) acc
         else insertKey acc (joinKey pre (toString i)))
end

/-- Embeds `getValue(obj, path)` from `convertToCSV`:
`path.split('.').reduce((acc, part) => acc?.[part], obj)`, before the final
`?? ''` (which `renderCell` applies). -/
def getValue (root : Json) (path : String) : Option Json :=
  reducePath (some root) (jsSplit '.' path)

/-- Header list of `convertToCSV` on a payload: `Array.from(allKeys)` after
the `flattenObject(data.radarData)` walk. -/
def csvHeaders (payload : Json) : List String :=
  flattenObject payload "" []

/-- Data-row cell list of `convertToCSV`:
`headers.map(header => getValue(data.radarData, header))`, each cell
rendered the way `Array.prototype.join` renders it after `?? ''`. -/
def csvRow (payload : Json) : List String :=
  (csvHeaders payload).map (fun h => renderCell (getValue payload h))

/-- Header line of the emitted CSV: `headers.join(',')`. -/
def csvHeaderLine (payload : Json) : String :=
  jsJoin "," (csvHeaders payload)

/-- Data line of the emitted CSV: `row.join(',')`. -/
def csvDataLine (payload : Json) : String :=
  jsJoin "," (csvRow payload)

/-- The `CloudflareData` record from `types.ts` / `cloudflareFetchHandler`:
one fetch outcome (the spec's FetchResult). -/
structure CloudflareData where
  orgId : String
  connectorParams : Json
  radarData : Json
  timestamp : String

/-- Embeds `convertToCSV(data)` from the result-writer Lambda
(`src/unnamed/part_000`): flattens `data.radarData` and joins the header
row and the single data row with a newline
(`[headers.join(','), row.join(',')].join('\n')`). -/
def convertToCSV (data : CloudflareData) : String :=
  csvHeaderLine data.radarData ++ "\n" ++ csvDataLine data.radarData

/-- Embeds `JSON.stringify(data)` for a `CloudflareData` record, with the
property insertion order used when the record is built
(orgId, connectorParams, radarData, timestamp). -/
def stringifyCloudflareData (d : CloudflareData) : String :=
  jsonStringify (.obj [("orgId", .str d.orgId), ("connectorParams", d.connectorParams),
    ("radarData", d.radarData), ("timestamp", .str d.timestamp)])

namespace PrepareDataToFiles

/-- One element of `event.batchResults` in the result-writer Lambda: a
status code paired with a `CloudflareData` body (the spec's ResultBatch
entry). -/
structure BatchEntry where
  statusCode : Int
  body : CloudflareData

/-- One `PutObjectCommand` sent to S3 by the result writer. -/
structure S3Put where
  key : String
  body : String
  contentType : String

/-- Response body of the result-writer Lambda.  The success branch carries
the fixed message, bucket name and processed count; wall-clock duration and
start/end time fields of the source are determined by the two clock reads
and are not part of any claim, so they are represented by the handler's
`timestamp` parameter where they matter (the S3 keys). -/
inductive WriterBody where
  | success (message : String) (processedCount : Nat)
  | failure (error : String) (message : String)

/-- Full response of the result-writer Lambda. -/
structure WriterResponse where
  statusCode : Nat
  body : WriterBody

/-- The two `PutObjectCommand`s issued for one accepted batch entry:
`{orgId}/{timestamp}/data.json` with `JSON.stringify(data)`, then
`{orgId}/{timestamp}/data.csv` with `convertToCSV(data)`.  `timestamp` is
the handler's single `startTime.toISOString()` value. -/
def putsFor (timestamp : String) (d : CloudflareData) : List S3Put :=
  [⟨d.orgId ++ "/" ++ timestamp ++ "/data.json", stringifyCloudflareData d, "application/json"⟩,
   ⟨d.orgId ++ "/" ++ timestamp ++ "/data.csv", convertToCSV d, "text/csv"⟩]

/-- Embeds the `for (const [index, result] of results.entries())` loop of the
result-writer Lambda: entries are processed in order; on the first entry
with `statusCode !== 200` the loop throws (`Invalid status code ...`),
leaving the writes performed so far in place.  Otherwise the
`[Record Details]` log reads `data.connectorParams.exchange_id` and
`data.connectorParams.ticker_symbol` — which throw a `TypeError` when
`connectorParams` is `null`, again before any write for that entry — and
then two objects are written for the entry.  Returns the S3 writes
performed and either the number of processed records or the thrown error
message.  `idx` is `index + 1` of the source's message. -/
def processResults (timestamp : String) (idx : Nat) :
    List BatchEntry → List S3Put × Except String Nat
  | [] => ([], .ok 0)
  | e :: rest =>
      if e.statusCode ≠ 200 then
        ([], .error ("Invalid status code " ++ toString e.statusCode ++ " for record " ++ toString idx))
      else
        match jsGetProp (some e.body.connectorParams) "exchange_id" with
        | .error m => ([], .error m)
        | .ok _ =>
            match jsGetProp (some e.body.connectorParams) "ticker_symbol" with
            | .error m => ([], .error m)
            | .ok _ =>
                match processResults timestamp (idx + 1) rest with
                | (puts, r) => (putsFor timestamp e.body ++ puts, r.map (· + 1))

/-- Embeds the result-writer Lambda `handler` (`src/unnamed/part_000`,
`prepareDataToFiles`).  `timestamp` stands for `startTime.toISOString()`,
read once at entry.  Returns the list of S3 writes the invocation performed
together with its response: 200 with the completion body on success, 500
with the catch-branch body when the loop threw. -/
def handler (timestamp : String) (batchResults : List BatchEntry) :
    List S3Put × WriterResponse :=
  match processResults timestamp 1 batchResults with
  | (puts, .ok n) => (puts, ⟨200, .success "Data processing completed" n⟩)
  | (puts, .error m) => (puts, ⟨500, .failure "Failed to process data" m⟩)

end PrepareDataToFiles

/-- The per-organization entry of `ProviderResponse.orgs` from `types.ts`
(the spec's EntityConfig): `orgId` plus connector parameters. -/
structure OrgConfig where
  orgId : String
  connectorParams : Json

/-- The `ProviderResponse` record from `types.ts` (the spec's
ProviderRecord). -/
structure ProviderResponse where
  providerId : String
  resourceType : String
  providerName : String
  externalId : String
  secrets : String
  connectorParams : Json
  orgs : List OrgConfig

/-- The `ExtractedOrg` record from `types.ts` (the spec's ExtractedEntity). -/
structure ExtractedOrg where
  id : String
  connectorParams : Json

namespace DecryptionHandler

/-- Response of the decryption Lambda: 200 with the provider record on
success (its catch branch is unreachable for a well-formed record, since
the try block only reads fields of the record). -/
structure DecResponse where
  statusCode : Nat
  body : ProviderResponse

/-- Embeds the decryption Lambda `handler`
(`src/asl/src/lambda/decryptionHandler.ts`): on a well-formed
`event.body`, it returns 200 with
`{ ...providerData, secrets: "decrypted-secret-data" }` — a spread of the
input with only `secrets` overwritten by the fixed literal. -/
def handler (eventBody : ProviderResponse) : DecResponse :=
  ⟨200, { eventBody with secrets := "decrypted-secret-data" }⟩

end DecryptionHandler

namespace ExtractOrgs

/-- Response body of the extract-orgs Lambda on success:
`{ orgIds: [...] }`. -/
structure ExtractedOrgsResponse where
  orgIds : List ExtractedOrg

/-- Response of the extract-orgs Lambda on a well-formed provider record. -/
structure ExtractResponse where
  statusCode : Nat
  body : ExtractedOrgsResponse

/-- Embeds the extract-orgs Lambda `handler`
(`src/asl/src/lambda/extractOrgs.ts`) on a well-formed `event.body`:
`providerData.orgs.map(org => ({ id: org.orgId, connectorParams: org.connectorParams }))`
wrapped in a 200 response. -/
def handler (eventBody : ProviderResponse) : ExtractResponse :=
  ⟨200, ⟨eventBody.orgs.map (fun org => ⟨org.orgId, org.connectorParams⟩)⟩⟩

/-- Result body of the untyped extract-orgs model: the success branch 
carries the mapped `{ id, connectorParams }` pairs (either component may be
`undefined`); the failure branch is the catch-branch body's `error` and
`message` fields. -/
inductive ExtractBodyJson where
  | success (orgIds : List (JsVal × JsVal))
  | failure (error : String) (message : String)

/-- Response of the untyped extract-orgs model. -/
structure ExtractResponseJson where
  statusCode : Nat
  body : ExtractBodyJson

/-- The `orgs.map(org => ...)` callback of the extract-orgs Lambda applied
along the array: reads `org.orgId` (logged and used) and
`org.connectorParams`, either of which throws on a `null` element. -/
def mapOrgs : List Json → Except String (List (JsVal × JsVal))
  | [] => .ok []
  | org :: rest =>
      match jsGetProp (some org) "orgId" with
      | .error m => .error m
      | .ok oid =>
          match jsGetProp (some org) "connectorParams" with
          | .error m => .error m
          | .ok cp =>
              match mapOrgs rest with
              | .error m => .error m
              | .ok t => .ok ((oid, cp) :: t)

/-- Try-block of the extract-orgs Lambda on an arbitrary event value,
following the source's property accesses in order: `event.body`, then the
logged `providerData.providerId`, `providerData.providerName` and
`providerData.orgs.length`, then `providerData.orgs.map(...)`.  Calling
`.map` on anything but an array throws a `TypeError`. -/
def tryExtract (event : JsVal) : Except String (List (JsVal × JsVal)) :=
  match jsGetProp event "body" with
  | .error m => .error m
  | .ok providerData =>
      match jsGetProp providerData "providerId" with
      | .error m => .error m
      | .ok _ =>
          match jsGetProp providerData "providerName" with
          | .error m => .error m
          | .ok _ =>
              match jsGetProp providerData "orgs" with
              | .error m => .error m
              | .ok orgsLogged =>
                  match jsGetProp orgsLogged "length" with
                  | .error m => .error m
                  | .ok _ =>
                      match jsGetProp providerData "orgs" with
                      | .error m => .error m
                      | .ok (some (.arr elems)) => mapOrgs elems
                      | .ok _ => .error "providerData.orgs.map is not a function"

/-- Embeds the extract-orgs Lambda `handler` on an arbitrary (untyped)
event: the try block above, with the catch branch returning 500 and
`{ error: 'Failed to extract organization data', message, timestamp }`
(the timestamp is wall-clock and not modelled). -/
def handlerJson (event : JsVal) : ExtractResponseJson :=
  match tryExtract event with
  | .ok orgIds => ⟨200, .success orgIds⟩
  | .error m => ⟨500, .failure "Failed to extract organization data" m⟩

/-- States that the event's `body.orgs` resolves to a JavaScript array: the
spec's "`entities` is present and is a list". -/
def orgsIsList (event : JsVal) : Bool :=
  match jsGetProp event "body" with
  | .ok pd =>
      match jsGetProp pd "orgs" with
      | .ok (some (.arr _)) => true
      | _ => false
  | .error _ => false

end ExtractOrgs

namespace CloudflareFetch

/-- Outcome of the one `https.request` the fetch Lambda performs, as seen at
its promise boundary: either the response arrived with a status code and a
body whose `JSON.parse` either succeeded (`.ok` with the parsed value) or
threw (`.error` with the parse error's message), or the request emitted a
transport error. -/
inductive HttpsOutcome where
  | response (status : Nat) (parsed : Except String Json)
  | transportError (msg : String)

/-- Embeds `makeCloudflareRequest` from the fetch Lambda
(`cloudflareFetchHandler`, concatenated into
`src/asl/src/lambda/providerEndpoint.ts`): resolves with
`{ status: res.statusCode || 500, data: JSON.parse(data) }` when the body
parses, rejects with `Failed to parse response: ...` when `JSON.parse`
throws, and rejects with `Request failed: ...` on a transport error. -/
def makeCloudflareRequest : HttpsOutcome → Except String (Nat × Json)
  | .response status (.ok data) => .ok (status, data)
  | .response _ (.error m) => .error ("Failed to parse response: " ++ m)
  | .transportError m => .error ("Request failed: " ++ m)

/-- Response body of the fetch Lambda: `CloudflareData` on success, or the
catch-branch `{ error, message }` body. -/
inductive FetchBody where
  | success (data : CloudflareData)
  | failure (error : String) (message : String)

/-- Response of the fetch Lambda. -/
structure FetchResponse where
  statusCode : Nat
  body : FetchBody

/-- Embeds the fetch Lambda `handler`: destructures `{ id, connectorParams }`
from the event, logs `connectorParams.exchange_id` and
`connectorParams.ticker_symbol` — reads that throw a `TypeError` when
`connectorParams` is `null`, landing in the catch branch before any request
is made — then awaits `makeCloudflareRequest`, and on resolution returns
200 with `{ orgId: id, connectorParams, radarData: radarResponse.data,
timestamp }` — the resolved `status` is logged but never examined.  Any
rejection lands in the catch branch: 500 with
`{ error: 'Failed to fetch Cloudflare data', message }`.  `now` stands for
`new Date().toISOString()`. -/
def handler (event : ExtractedOrg) (net : HttpsOutcome) (now : String) : FetchResponse :=
  match jsGetProp (some event.connectorParams) "exchange_id" with
  | .error m => ⟨500, .failure "Failed to fetch Cloudflare data" m⟩
  | .ok _ =>
      match jsGetProp (some event.connectorParams) "ticker_symbol" with
      | .error m => ⟨500, .failure "Failed to fetch Cloudflare data" m⟩
      | .ok _ =>
          match makeCloudflareRequest net with
          | .ok (_, data) => ⟨200, .success ⟨event.id, event.connectorParams, data, now⟩⟩
          | .error m => ⟨500, .failure "Failed to fetch Cloudflare data" m⟩

end CloudflareFetch

mutual
/-- Formalizes the claims' "array-free JSON payload": no array value occurs
anywhere in the payload. -/
def arrayFree : Json → Bool
  | .arr _ => false
  | .obj fs => arrayFreeFields fs
  | _ => true

/-- Array-freeness of an object's fields. -/
def arrayFreeFields : List (String × Json) → Bool
  | [] => true
  | (_, v) :: rest => arrayFree v && arrayFreeFields rest
end

/-- Formalizes the claim's notion of the (unescaped) textual form of a leaf
value, independently of the serializer under verification: a string leaf is
itself, a number renders in decimal, booleans as `true`/`false`, and `null`
renders as the empty string (the spec's "resolved-null values render as
empty string"). -/
def renderLeaf : Json → String
  | .null => ""
  | .bool b => cond b "true" "false"
  | .num n => toString n
  | .str s => s
  | .arr _ => ""
  | .obj _ => ""

/-- An object key that cannot disturb the dot-path/CSV encoding: nonempty
and free of `.`, `,` and newline. -/
def goodKey (k : String) : Bool :=
  decide (k ≠ "") && decide (¬ '.' ∈ k.data) && decide (¬ ',' ∈ k.data) && decide (¬ '\n' ∈ k.data)

/-- A leaf whose rendered form cannot disturb the CSV row: free of `,` and
newline. -/
def goodLeaf (v : Json) : Bool :=
  decide (¬ ',' ∈ (renderLeaf v).data) && decide (¬ '\n' ∈ (renderLeaf v).data)

/-- Keys pairwise distinct, as they necessarily are on a real JavaScript
object. -/
def nodupKeys : List String → Bool
  | [] => true
  | k :: rest => if k ∈ rest then false else nodupKeys rest

mutual
/-- A payload that is a faithful image of a JavaScript object tree and whose
keys and leaf renderings cannot disturb the dot-path/CSV encoding: array
free, with pairwise-distinct good keys at every object and good leaves. -/
def goodJson : Json → Bool
  | .obj fs => nodupKeys (fs.map Prod.fst) && goodFields fs
  | .arr _ => false
  | v => goodLeaf v

/-- Goodness of an object's fields. -/
def goodFields : List (String × Json) → Bool
  | [] => true
  | (k, v) :: rest => goodKey k && goodJson v && goodFields rest
end

/-- Formalizes the claims' "leaf value at a path": `LeafAt j path leaf`
holds when descending through object fields of `j` along the keys of
`path` ends at the non-object, non-array value `leaf`. -/
inductive LeafAt : Json → List String → Json → Prop where
  | here {fs : List (String × Json)} {k : String} {v : Json} :
      (k, v) ∈ fs → objectLike v = false → LeafAt (.obj fs) [k] v
  | there {fs : List (String × Json)} {k : String} {v : Json} {path : List String} {leaf : Json} :
      (k, v) ∈ fs → objectLike v = true → LeafAt v path leaf →
      LeafAt (.obj fs) (k :: path) leaf

mutual
/-- Specification-side description of the dotted leaf paths that the
`flattenObject` walk of `convertToCSV` visits, in visit order and without
the `Set` deduplication, for object values. -/
def leafPathsO : Json → String → List String
  | .obj fs, pre => leafPathsF fs pre
  | _, _ => []

/-- Dotted leaf paths contributed by an object's fields. -/
def leafPathsF : List (String × Json) → String → List String
  | [], _ => []
  | (k, v) :: rest, pre =>
      (if objectLike v then leafPathsO v (joinKey pre k) else [joinKey pre k]) ++
        leafPathsF rest pre
end

/-- Left fold of `joinKey` along a path: the dotted prefix the flatten walk
has accumulated after descending through `path` starting from prefix
`pre`. -/
def joinPath (pre : String) : List String → String
  | [] => pre
  | k :: rest => joinPath (joinKey pre k) rest

theorem jsGetProp_of_not_null {v : Json} (h : v.isNull = false) (k : String) :
    jsGetProp (some v) k = .ok (jsIndex v k) := by
  cases v <;> simp_all [Json.isNull, jsGetProp]

theorem processResults_ok (ts : String) :
    ∀ (batch : List PrepareDataToFiles.BatchEntry) (idx : Nat),
      (∀ e ∈ batch, e.statusCode = 200) →
      (∀ e ∈ batch, e.body.connectorParams.isNull = false) →
      PrepareDataToFiles.processResults ts idx batch =
        (batch.flatMap (fun e => PrepareDataToFiles.putsFor ts e.body), .ok batch.length) := by
  intro batch
  induction batch with
  | nil => intro idx _ _; simp [PrepareDataToFiles.processResults]
  | cons e rest ih =>
      intro idx h hp
      have he : e.statusCode = 200 := h e (List.mem_cons_self e rest)
      have hpe : e.body.connectorParams.isNull = false := hp e (List.mem_cons_self e rest)
      have hrest := ih (idx + 1) (fun e' he' => h e' (List.mem_cons_of_mem _ he'))
        (fun e' he' => hp e' (List.mem_cons_of_mem _ he'))
      simp [PrepareDataToFiles.processResults, he, hrest, Except.map,
        jsGetProp_of_not_null hpe]

theorem processResults_failfast (ts : String) (bad : PrepareDataToFiles.BatchEntry)
    (hbad : bad.statusCode ≠ 200) :
    ∀ (pre : List PrepareDataToFiles.BatchEntry) (idx : Nat)
      (post : List PrepareDataToFiles.BatchEntry),
      (∀ e ∈ pre, e.statusCode = 200) →
      (∀ e ∈ pre, e.body.connectorParams.isNull = false) →
      PrepareDataToFiles.processResults ts idx (pre ++ bad :: post) =
        (pre.flatMap (fun e => PrepareDataToFiles.putsFor ts e.body),
         .error ("Invalid status code " ++ toString bad.statusCode ++ " for record " ++
           toString (idx + pre.length))) := by
  intro pre
  induction pre with
  | nil =>
      intro idx post _ _
      simp [PrepareDataToFiles.processResults, hbad]
  | cons e rest ih =>
      intro idx post h hp
      have he : e.statusCode = 200 := h e (List.mem_cons_self e rest)
      have hpe : e.body.connectorParams.isNull = false := hp e (List.mem_cons_self e rest)
      have hrest := ih (idx + 1) post (fun e' he' => h e' (List.mem_cons_of_mem _ he'))
        (fun e' he' => hp e' (List.mem_cons_of_mem _ he'))
      have harith : idx + 1 + rest.length = idx + (rest.length + 1) := by omega
      simp only [List.cons_append, PrepareDataToFiles.processResults, he, List.append_eq,
        jsGetProp_of_not_null hpe]
      rw [hrest]
      simp [Except.map, harith]

/-- Claim C1 (amended): the result writer checks each entry's status code
only as the loop reaches it, so when a batch contains a non-200 entry
(preceded by accepted entries whose `connectorParams` is non-null, so that
the per-entry log reads do not throw first) the handler fails with a 500
response and persists nothing for the first non-200 entry or anything after
it — but both objects of every entry before the first non-200 entry have
already been written to the store. -/
theorem prepareData_failfast (ts : String)
    (pre post : List PrepareDataToFiles.BatchEntry) (bad : PrepareDataToFiles.BatchEntry)
    (hpre : ∀ e ∈ pre, e.statusCode = 200)
    (hpre2 : ∀ e ∈ pre, e.body.connectorParams.isNull = false)
    (hbad : bad.statusCode ≠ 200) :
    (PrepareDataToFiles.handler ts (pre ++ bad :: post)).2.statusCode = 500 ∧
    (PrepareDataToFiles.handler ts (pre ++ bad :: post)).1 =
      pre.flatMap (fun e => PrepareDataToFiles.putsFor ts e.body) := by
  unfold PrepareDataToFiles.handler
  rw [processResults_failfast ts bad hbad pre 1 post hpre hpre2]
  exact ⟨rfl, rfl⟩

/-- Claim C1, counterexample to the claim as stated: a batch whose second
entry has status 500 still gets the first entry's two objects persisted
(two writes occur), even though the handler fails the batch with 500 —
refuting "zero writes occur for a batch containing any non-success
entry". -/
theorem prepareData_nonatomic_cex :
    ((PrepareDataToFiles.handler "T0"
        [⟨200, ⟨"155", .obj [], .null, "T1"⟩⟩, ⟨500, ⟨"148", .obj [], .null, "T1"⟩⟩]).1).length = 2 ∧
    (PrepareDataToFiles.handler "T0"
        [⟨200, ⟨"155", .obj [], .null, "T1"⟩⟩, ⟨500, ⟨"148", .obj [], .null, "T1"⟩⟩]).2.statusCode = 500 := by
  exact ⟨rfl, rfl⟩

theorem prepareData_failfast_witness :
    (∀ e ∈ [(⟨200, ⟨"155", .obj [], .null, "T1"⟩⟩ : PrepareDataToFiles.BatchEntry)], e.statusCode = 200) ∧
    (∀ e ∈ [(⟨200, ⟨"155", .obj [], .null, "T1"⟩⟩ : PrepareDataToFiles.BatchEntry)],
      e.body.connectorParams.isNull = false) ∧
    ((⟨500, ⟨"148", .obj [], .null, "T1"⟩⟩ : PrepareDataToFiles.BatchEntry).statusCode ≠ 200) ∧
    ((PrepareDataToFiles.handler "T0"
        ([⟨200, ⟨"155", .obj [], .null, "T1"⟩⟩] ++ ⟨500, ⟨"148", .obj [], .null, "T1"⟩⟩ :: [])).2.statusCode = 500 ∧
     (PrepareDataToFiles.handler "T0"
        ([⟨200, ⟨"155", .obj [], .null, "T1"⟩⟩] ++ ⟨500, ⟨"148", .obj [], .null, "T1"⟩⟩ :: [])).1 =
       [(⟨200, ⟨"155", .obj [], .null, "T1"⟩⟩ : PrepareDataToFiles.BatchEntry)].flatMap
         (fun e => PrepareDataToFiles.putsFor "T0" e.body)) :=
  ⟨by decide, by decide, by decide,
   prepareData_failfast "T0" [⟨200, ⟨"155", .obj [], .null, "T1"⟩⟩] []
     ⟨500, ⟨"148", .obj [], .null, "T1"⟩⟩ (by decide) (by decide) (by decide)⟩

/-- Claim C9 (amended): for every entry of a successfully processed batch
(all entries accepted with status 200 and non-null `connectorParams`, the
domain on which the per-entry log reads do not throw) the result writer
writes exactly two objects, the structured form at
`{orgId}/{timestamp}/data.json` and the flattened form at
`{orgId}/{timestamp}/data.csv`, where `orgId` is the entry's own entity id
but `timestamp` is the single invocation start time of the writer, shared
by the whole batch (it is not the entry's own `timestamp` field). -/
theorem prepareData_two_writes_per_entry (ts : String)
    (batch : List PrepareDataToFiles.BatchEntry)
    (h : ∀ e ∈ batch, e.statusCode = 200)
    (hp : ∀ e ∈ batch, e.body.connectorParams.isNull = false) :
    (PrepareDataToFiles.handler ts batch).2.statusCode = 200 ∧
    (PrepareDataToFiles.handler ts batch).1 =
      batch.flatMap (fun e =>
        [⟨e.body.orgId ++ "/" ++ ts ++ "/data.json", stringifyCloudflareData e.body, "application/json"⟩,
         ⟨e.body.orgId ++ "/" ++ ts ++ "/data.csv", convertToCSV e.body, "text/csv"⟩]) := by
  unfold PrepareDataToFiles.handler
  rw [processResults_ok ts batch 1 h hp]
  exact ⟨rfl, rfl⟩

/-- Claim C9, counterexample to the claim as stated: an entry whose own
`timestamp` field is `T1`, written by a handler invocation that started at
`T0`, lands at keys derived from `T0`; the key derived from the entry's own
`(entityId, timestamp)` pair is not among the written keys. -/
theorem prepareData_timestamp_cex :
    ((PrepareDataToFiles.handler "T0" [⟨200, ⟨"155", .obj [], .null, "T1"⟩⟩]).1).map
        (fun p => p.key) = ["155/T0/data.json", "155/T0/data.csv"] ∧
    ¬ ("155/" ++ ("T1" : String) ++ "/data.json") ∈
        ((PrepareDataToFiles.handler "T0" [⟨200, ⟨"155", .obj [], .null, "T1"⟩⟩]).1).map
          (fun p => p.key) := by
  exact ⟨rfl, by decide⟩

theorem prepareData_two_writes_per_entry_witness :
    (∀ e ∈ [(⟨200, ⟨"155", .obj [], .null, "T1"⟩⟩ : PrepareDataToFiles.BatchEntry)], e.statusCode = 200) ∧
    (∀ e ∈ [(⟨200, ⟨"155", .obj [], .null, "T1"⟩⟩ : PrepareDataToFiles.BatchEntry)],
      e.body.connectorParams.isNull = false) ∧
    ((PrepareDataToFiles.handler "T0" [⟨200, ⟨"155", .obj [], .null, "T1"⟩⟩]).2.statusCode = 200 ∧
     (PrepareDataToFiles.handler "T0" [⟨200, ⟨"155", .obj [], .null, "T1"⟩⟩]).1 =
       [(⟨200, ⟨"155", .obj [], .null, "T1"⟩⟩ : PrepareDataToFiles.BatchEntry)].flatMap (fun e =>
         [⟨e.body.orgId ++ "/" ++ "T0" ++ "/data.json", stringifyCloudflareData e.body, "application/json"⟩,
          ⟨e.body.orgId ++ "/" ++ "T0" ++ "/data.csv", convertToCSV e.body, "text/csv"⟩])) :=
  ⟨by decide, by decide,
   prepareData_two_writes_per_entry "T0" [⟨200, ⟨"155", .obj [], .null, "T1"⟩⟩]
     (by decide) (by decide)⟩

/-- Claim C2: for every provider record with N orgs, the extract-orgs
Lambda returns exactly N extracted entries in the same order, entry i
carrying `id = orgs[i].orgId` and `connectorParams = orgs[i].connectorParams`
unchanged. -/
theorem extractOrgs_pointwise (p : ProviderResponse) :
    (ExtractOrgs.handler p).statusCode = 200 ∧
    ((ExtractOrgs.handler p).body.orgIds).length = p.orgs.length ∧
    ∀ i : Nat,
      (((ExtractOrgs.handler p).body.orgIds).get? i).map (fun o => o.id) =
        (p.orgs.get? i).map (fun o => o.orgId) ∧
      (((ExtractOrgs.handler p).body.orgIds).get? i).map (fun o => o.connectorParams) =
        (p.orgs.get? i).map (fun o => o.connectorParams) := by
  refine ⟨rfl, by simp [ExtractOrgs.handler], fun i => ?_⟩
  constructor <;>
  · simp only [ExtractOrgs.handler, List.get?_eq_getElem?, List.getElem?_map]
    cases p.orgs[i]? <;> rfl

/-- Claim C4: flattening the payload `{"a": {"b": 1, "c": 2}, "d": 3}`
yields exactly the header line `a.b,a.c,d` and the data line `1,2,3`. -/
theorem convertToCSV_example :
    csvHeaderLine (.obj [("a", .obj [("b", .num 1), ("c", .num 2)]), ("d", .num 3)]) =
      "a.b,a.c,d" ∧
    csvDataLine (.obj [("a", .obj [("b", .num 1), ("c", .num 2)]), ("d", .num 3)]) =
      "1,2,3" ∧
    convertToCSV ⟨"155", .null, .obj [("a", .obj [("b", .num 1), ("c", .num 2)]), ("d", .num 3)], "T"⟩ =
      "a.b,a.c,d" ++ "\n" ++ "1,2,3" :=
  ⟨rfl, rfl, rfl⟩

/-- Claim C5: the flatten-and-serialize routine is a pure function of its
input — two runs on the same payload produce the same header line and the
same data line (in this embedding the routine is deterministic by
construction, so the two runs are literally the same value). -/
theorem convertToCSV_deterministic (d : CloudflareData) :
    csvHeaderLine d.radarData = csvHeaderLine d.radarData ∧
    csvDataLine d.radarData = csvDataLine d.radarData ∧
    convertToCSV d = convertToCSV d :=
  ⟨rfl, rfl, rfl⟩

/-- Claim C6: the decryption Lambda replaces only the `secrets` field (with
its decrypted form); `providerId`, `resourceType`, `providerName`,
`externalId`, `connectorParams` and `orgs` all pass through unchanged. -/
theorem decryptionHandler_frame (p : ProviderResponse) :
    (DecryptionHandler.handler p).body.secrets = "decrypted-secret-data" ∧
    (DecryptionHandler.handler p).body.providerId = p.providerId ∧
    (DecryptionHandler.handler p).body.resourceType = p.resourceType ∧
    (DecryptionHandler.handler p).body.providerName = p.providerName ∧
    (DecryptionHandler.handler p).body.externalId = p.externalId ∧
    (DecryptionHandler.handler p).body.connectorParams = p.connectorParams ∧
    (DecryptionHandler.handler p).body.orgs = p.orgs :=
  ⟨rfl, rfl, rfl, rfl, rfl, rfl, rfl⟩

/-- Claim C10: the `secrets` field of the decryption Lambda's output does
not depend on the input's secret blob — two inputs differing only in
`secrets` produce outputs with identical `secrets` fields (the "decrypted"
form is the fixed literal `decrypted-secret-data`). -/
theorem decryptionHandler_secret_independent (p : ProviderResponse) (s₁ s₂ : String) :
    (DecryptionHandler.handler { p with secrets := s₁ }).body.secrets =
      (DecryptionHandler.handler { p with secrets := s₂ }).body.secrets :=
  rfl

/-- Claim C7, counterexample to the claim as stated: a non-2xx upstream
response (status 503) whose body parses as JSON makes the fetch Lambda
return a 200 success result carrying the error payload as `radarData` —
the resolved status is logged but never checked, so no upstream-error
failure is produced. -/
theorem cloudflareFetch_non2xx_cex :
    (CloudflareFetch.handler ⟨"155", .obj []⟩ (.response 503 (.ok (.obj []))) "T").statusCode = 200 ∧
    (CloudflareFetch.handler ⟨"155", .obj []⟩ (.response 503 (.ok (.obj []))) "T").body =
      .success ⟨"155", .obj [], .obj [], "T"⟩ :=
  ⟨rfl, rfl⟩

/-- Claim C7 (amended): for every event whose `connectorParams` is
non-null (so that the pre-request log reads do not throw first), the fetch
Lambda fails (500, error `Failed to fetch Cloudflare data`) with message
`Failed to parse response: ...` when the response body cannot be parsed —
regardless of status code — and with message `Request failed: ...` on
transport failure; every response whose body parses, including non-2xx
responses, yields a success result (200) carrying
(id, parameters, payload, timestamp). -/
theorem cloudflareFetch_error_classification (ev : ExtractedOrg) (now : String)
    (st : Nat) (m : String) (j : Json) (hp : ev.connectorParams.isNull = false) :
    CloudflareFetch.handler ev (.response st (.error m)) now =
      ⟨500, .failure "Failed to fetch Cloudflare data" ("Failed to parse response: " ++ m)⟩ ∧
    CloudflareFetch.handler ev (.transportError m) now =
      ⟨500, .failure "Failed to fetch Cloudflare data" ("Request failed: " ++ m)⟩ ∧
    CloudflareFetch.handler ev (.response st (.ok j)) now =
      ⟨200, .success ⟨ev.id, ev.connectorParams, j, now⟩⟩ := by
  unfold CloudflareFetch.handler
  rw [jsGetProp_of_not_null hp "exchange_id", jsGetProp_of_not_null hp "ticker_symbol"]
  exact ⟨rfl, rfl, rfl⟩

theorem cloudflareFetch_error_classification_witness :
    ((⟨"155", .obj []⟩ : ExtractedOrg).connectorParams.isNull = false) ∧
    (CloudflareFetch.handler ⟨"155", .obj []⟩ (.response 503 (.error "boom")) "T" =
       ⟨500, .failure "Failed to fetch Cloudflare data" ("Failed to parse response: " ++ "boom")⟩ ∧
     CloudflareFetch.handler ⟨"155", .obj []⟩ (.transportError "boom") "T" =
       ⟨500, .failure "Failed to fetch Cloudflare data" ("Request failed: " ++ "boom")⟩ ∧
     CloudflareFetch.handler ⟨"155", .obj []⟩ (.response 503 (.ok (.num 7))) "T" =
       ⟨200, .success ⟨"155", .obj [], .num 7, "T"⟩⟩) :=
  ⟨rfl, cloudflareFetch_error_classification ⟨"155", .obj []⟩ "T" 503 "boom" (.num 7) rfl⟩

theorem tryExtract_ok_orgsIsList (ev : JsVal) (l : List (JsVal × JsVal))
    (h : ExtractOrgs.tryExtract ev = .ok l) : ExtractOrgs.orgsIsList ev = true := by
  unfold ExtractOrgs.tryExtract at h
  unfold ExtractOrgs.orgsIsList
  split at h
  · exact absurd h (by simp)
  · rename_i providerData hbody
    rw [hbody]
    split at h
    · exact absurd h (by simp)
    · split at h
      · exact absurd h (by simp)
      · split at h
        · exact absurd h (by simp)
        · rename_i orgsLogged horgs
          split at h
          · exact absurd h (by simp)
          · split at h
            · exact absurd h (by simp)
            · rename_i horgs2
              simp [horgs2]
            · exact absurd h (by simp)

/-- Claim C8: whenever the event's `body.orgs` is absent or not an array,
the extract-orgs Lambda fails — it returns a 500 response whose body is the
catch-branch failure record tagged `Failed to extract organization data` —
rather than succeeding. -/
theorem extractOrgs_malformed_fails (ev : JsVal)
    (h : ExtractOrgs.orgsIsList ev = false) :
    (ExtractOrgs.handlerJson ev).statusCode = 500 ∧
    ∃ m, (ExtractOrgs.handlerJson ev).body =
      .failure "Failed to extract organization data" m := by
  unfold ExtractOrgs.handlerJson
  cases ht : ExtractOrgs.tryExtract ev with
  | ok l =>
      have := tryExtract_ok_orgsIsList ev l ht
      rw [h] at this
      exact absurd this (by simp)
  | error m => exact ⟨rfl, m, rfl⟩

theorem extractOrgs_malformed_fails_witness :
    ExtractOrgs.orgsIsList (some (.obj [("body", .obj [("providerId", .str "p"), ("providerName", .str "n")])])) = false ∧
    ((ExtractOrgs.handlerJson (some (.obj [("body", .obj [("providerId", .str "p"), ("providerName", .str "n")])]))).statusCode = 500 ∧
     ∃ m, (ExtractOrgs.handlerJson (some (.obj [("body", .obj [("providerId", .str "p"), ("providerName", .str "n")])]))).body =
       .failure "Failed to extract organization data" m) :=
  ⟨by decide,
   extractOrgs_malformed_fails
     (some (.obj [("body", .obj [("providerId", .str "p"), ("providerName", .str "n")])])) (by decide)⟩

theorem mem_insertKey {acc : List String} {k x : String} :
    x ∈ insertKey acc k ↔ x ∈ acc ∨ x = k := by
  unfold insertKey
  split
  · rename_i hk
    exact ⟨Or.inl, fun h => h.elim id (fun hx => hx ▸ hk)⟩
  · simp [List.mem_append]

theorem goodFields_mem : ∀ {fs : List (String × Json)} {k : String} {v : Json},
    goodFields fs = true → (k, v) ∈ fs → goodKey k = true ∧ goodJson v = true := by
  intro fs
  induction fs with
  | nil => intro k v _ hm; cases hm
  | cons p rest ih =>
      obtain ⟨k', v'⟩ := p
      intro k v hg hm
      simp only [goodFields, Bool.and_eq_true] at hg
      obtain ⟨⟨hgk, hgv⟩, hgr⟩ := hg
      rcases List.mem_cons.mp hm with h | h
      · cases h
        exact ⟨hgk, hgv⟩
      · exact ih hgr h

theorem goodJson_obj {fs : List (String × Json)} (h : goodJson (.obj fs) = true) :
    nodupKeys (fs.map Prod.fst) = true ∧ goodFields fs = true := by
  simpa [goodJson, Bool.and_eq_true] using h

theorem lookupFirst_of_nodup : ∀ {fs : List (String × Json)} {k : String} {v : Json},
    nodupKeys (fs.map Prod.fst) = true → (k, v) ∈ fs → lookupFirst fs k = some v := by
  intro fs
  induction fs with
  | nil => intro k v _ hm; cases hm
  | cons p rest ih =>
      obtain ⟨k', v'⟩ := p
      intro k v hnd hm
      by_cases hc : k' ∈ rest.map Prod.fst
      · simp [nodupKeys, hc] at hnd
      · simp only [List.map_cons, nodupKeys, hc, if_false] at hnd
        rcases List.mem_cons.mp hm with h | h
        · cases h
          simp [lookupFirst]
        · have hkmem : k ∈ rest.map Prod.fst := List.mem_map_of_mem Prod.fst h
          have hkk : k' ≠ k := fun he => hc (he ▸ hkmem)
          simp only [lookupFirst, hkk, if_false]
          exact ih hnd h

theorem objectLike_good_obj {v : Json} (ho : objectLike v = true) (hg : goodJson v = true) :
    ∃ gs, v = .obj gs := by
  cases v <;> simp_all [objectLike, goodJson]

theorem mem_flattenFields_aux :
    ∀ (n : Nat) (fs : List (String × Json)), sizeOf fs ≤ n → goodFields fs = true →
      ∀ (pre : String) (acc : List String) (x : String),
        (x ∈ flattenFields fs pre acc ↔ x ∈ acc ∨ x ∈ leafPathsF fs pre) := by
  intro n
  induction n using Nat.strong_induction_on with
  | _ n ih =>
    intro fs hsz hg pre acc x
    cases fs with
    | nil => simp [flattenFields, leafPathsF]
    | cons p rest =>
      obtain ⟨k, v⟩ := p
      simp only [goodFields, Bool.and_eq_true] at hg
      obtain ⟨⟨hgk, hgv⟩, hgr⟩ := hg
      have hsz1 : sizeOf rest < n := by
        have h1 : sizeOf rest < sizeOf ((k, v) :: rest) := by
          simp only [List.cons.sizeOf_spec]; omega
        omega
      have hrest := ih (sizeOf rest) hsz1 rest le_rfl hgr
      by_cases hov : objectLike v = true
      · obtain ⟨gs, rfl⟩ := objectLike_good_obj hov hgv
        have hszg : sizeOf gs < n := by
          have h1 : sizeOf gs < sizeOf (Json.obj gs) := by
            simp only [Json.obj.sizeOf_spec]; omega
          have h2 : sizeOf (Json.obj gs) < sizeOf ((k, Json.obj gs) :: rest) := by
            simp only [List.cons.sizeOf_spec, Prod.mk.sizeOf_spec]; omega
          omega
        have hgs := ih (sizeOf gs) hszg gs le_rfl (goodJson_obj hgv).2
        simp only [flattenFields, leafPathsF, hov, if_true, flattenObject, leafPathsO]
        rw [hrest pre _ x, hgs (joinKey pre k) acc x]
        simp only [List.mem_append]
        tauto
      · simp only [Bool.not_eq_true] at hov
        simp only [flattenFields, leafPathsF, hov, Bool.false_eq_true, if_false]
        rw [hrest pre _ x]
        rw [mem_insertKey]
        simp only [List.mem_append, List.mem_singleton]
        tauto

theorem mem_csvHeaders {fs : List (String × Json)} (hg : goodJson (.obj fs) = true) (x : String) :
    x ∈ csvHeaders (.obj fs) ↔ x ∈ leafPathsF fs "" := by
  have h := mem_flattenFields_aux (sizeOf fs) fs le_rfl (goodJson_obj hg).2 "" [] x
  simpa [csvHeaders, flattenObject] using h

theorem leafAt_cons {p : String × Json} {rest : List (String × Json)} {path : List String}
    {leaf : Json} (h : LeafAt (.obj rest) path leaf) : LeafAt (.obj (p :: rest)) path leaf := by
  cases h with
  | here hm ho => exact .here (List.mem_cons_of_mem _ hm) ho
  | there hm ho hl => exact .there (List.mem_cons_of_mem _ hm) ho hl

theorem exists_leafAt_of_mem_aux :
    ∀ (n : Nat) (fs : List (String × Json)), sizeOf fs ≤ n →
      ∀ (pre : String) (x : String), x ∈ leafPathsF fs pre →
        ∃ path leaf, x = joinPath pre path ∧ LeafAt (.obj fs) path leaf := by
  intro n
  induction n using Nat.strong_induction_on with
  | _ n ih =>
    intro fs hsz pre x hx
    cases fs with
    | nil => simp [leafPathsF] at hx
    | cons p rest =>
      obtain ⟨k, v⟩ := p
      have hsz1 : sizeOf rest < n := by
        have h1 : sizeOf rest < sizeOf ((k, v) :: rest) := by
          simp only [List.cons.sizeOf_spec]; omega
        omega
      simp only [leafPathsF, List.mem_append] at hx
      rcases hx with hx | hx
      · by_cases hov : objectLike v = true
        · rw [if_pos hov] at hx
          cases v with
          | obj gs =>
              have hszg : sizeOf gs < n := by
                have h1 : sizeOf gs < sizeOf (Json.obj gs) := by
                  simp only [Json.obj.sizeOf_spec]; omega
                have h2 : sizeOf (Json.obj gs) < sizeOf ((k, Json.obj gs) :: rest) := by
                  simp only [List.cons.sizeOf_spec, Prod.mk.sizeOf_spec]; omega
                omega
              simp only [leafPathsO] at hx
              obtain ⟨path, leaf, rfl, hleaf⟩ := ih (sizeOf gs) hszg gs le_rfl (joinKey pre k) x hx
              exact ⟨k :: path, leaf, rfl,
                .there (List.mem_cons_self _ _) hov hleaf⟩
          | arr xs => simp [leafPathsO] at hx
          | null => simp [objectLike] at hov
          | bool b => simp [objectLike] at hov
          | num m => simp [objectLike] at hov
          | str s => simp [objectLike] at hov
        · simp only [Bool.not_eq_true] at hov
          rw [if_neg (by simp [hov])] at hx
          rw [List.mem_singleton] at hx
          subst hx
          exact ⟨[k], v, rfl, .here (List.mem_cons_self _ _) hov⟩
      · obtain ⟨path, leaf, rfl, hleaf⟩ := ih (sizeOf rest) hsz1 rest le_rfl pre x hx
        exact ⟨path, leaf, rfl, leafAt_cons hleaf⟩

theorem mem_leafPathsF_here : ∀ {fs : List (String × Json)} {k : String} {v : Json} {pre : String},
    (k, v) ∈ fs → objectLike v = false → joinKey pre k ∈ leafPathsF fs pre := by
  intro fs
  induction fs with
  | nil => intro k v pre hm _; cases hm
  | cons p rest ih =>
      obtain ⟨k', v'⟩ := p
      intro k v pre hm ho
      simp only [leafPathsF, List.mem_append]
      rcases List.mem_cons.mp hm with h | h
      · cases h
        rw [if_neg (by simp [ho])]
        exact Or.inl (List.mem_singleton.mpr rfl)
      · exact Or.inr (ih h ho)

theorem mem_leafPathsF_there : ∀ {fs : List (String × Json)} {k : String} {v : Json}
    {pre x : String},
    (k, v) ∈ fs → objectLike v = true → x ∈ leafPathsO v (joinKey pre k) →
    x ∈ leafPathsF fs pre := by
  intro fs
  induction fs with
  | nil => intro k v pre x hm _ _; cases hm
  | cons p rest ih =>
      obtain ⟨k', v'⟩ := p
      intro k v pre x hm ho hx
      simp only [leafPathsF, List.mem_append]
      rcases List.mem_cons.mp hm with h | h
      · cases h
        rw [if_pos ho]
        exact Or.inl hx
      · exact Or.inr (ih h ho hx)

theorem mem_leafPaths_of_leafAt {j : Json} {path : List String} {leaf : Json}
    (h : LeafAt j path leaf) : ∀ pre, joinPath pre path ∈ leafPathsO j pre := by
  induction h with
  | here hm ho =>
      intro pre
      simpa [leafPathsO, joinPath] using mem_leafPathsF_here hm ho
  | there hm ho _ ih =>
      intro pre
      simpa [leafPathsO, joinPath] using mem_leafPathsF_there hm ho (ih (joinKey pre _))

theorem leafAt_path_ne_nil {j : Json} {path : List String} {leaf : Json}
    (h : LeafAt j path leaf) : path ≠ [] := by
  cases h <;> simp

theorem leafAt_not_objectLike {j : Json} {path : List String} {leaf : Json}
    (h : LeafAt j path leaf) : objectLike leaf = false := by
  induction h with
  | here _ ho => exact ho
  | there _ _ _ ih => exact ih

theorem goodLeaf_of_flat {v : Json} (ho : objectLike v = false) (hg : goodJson v = true) :
    goodLeaf v = true := by
  cases v <;> simp_all [objectLike, goodJson]

theorem leafAt_good {j : Json} {path : List String} {leaf : Json}
    (h : LeafAt j path leaf) : goodJson j = true →
    (∀ k ∈ path, goodKey k = true) ∧ goodLeaf leaf = true := by
  induction h with
  | here hm ho =>
      intro hg
      obtain ⟨hgk, hgv⟩ := goodFields_mem (goodJson_obj hg).2 hm
      exact ⟨fun k' hk' => by rwa [List.mem_singleton.mp hk'], goodLeaf_of_flat ho hgv⟩
  | there hm _ _ ih =>
      intro hg
      obtain ⟨hgk, hgv⟩ := goodFields_mem (goodJson_obj hg).2 hm
      obtain ⟨hpath, hleaf⟩ := ih hgv
      refine ⟨fun k' hk' => ?_, hleaf⟩
      rcases List.mem_cons.mp hk' with rfl | hk'
      · exact hgk
      · exact hpath k' hk'

theorem reducePath_of_leafAt {j : Json} {path : List String} {leaf : Json}
    (h : LeafAt j path leaf) : goodJson j = true → reducePath (some j) path = some leaf := by
  induction h with
  | here hm ho =>
      intro hg
      have hl := lookupFirst_of_nodup (goodJson_obj hg).1 hm
      simp [reducePath, Option.bind, jsIndex, hl]
  | there hm ho _ ih =>
      intro hg
      obtain ⟨_, hgv⟩ := goodFields_mem (goodJson_obj hg).2 hm
      have hl := lookupFirst_of_nodup (goodJson_obj hg).1 hm
      simp [reducePath, Option.bind, jsIndex, hl, ih hgv]

theorem renderCell_eq_renderLeaf {leaf : Json} (ho : objectLike leaf = false) :
    renderCell (some leaf) = renderLeaf leaf := by
  cases leaf <;> simp [objectLike, renderCell, jsToString, renderLeaf] at ho ⊢

theorem joinKey_data {pre k : String} (h : pre ≠ "") :
    (joinKey pre k).data = pre.data ++ '.' :: k.data := by
  simp only [joinKey, if_neg h, String.data_append]
  simp

theorem joinKey_ne_empty {pre k : String} (h : pre ≠ "") : joinKey pre k ≠ "" := by
  intro he
  have hd : (joinKey pre k).data = [] := by rw [he]
  rw [joinKey_data h] at hd
  simp at hd

theorem jsJoin_cons₂ (sep a b : String) (t : List String) :
    jsJoin sep (a :: b :: t) = a ++ sep ++ jsJoin sep (b :: t) := rfl

theorem joinPath_of_ne (path : List String) : ∀ (pre : String), pre ≠ "" →
    joinPath pre path = if path = [] then pre else pre ++ "." ++ jsJoin "." path := by
  induction path with
  | nil => intro pre _; simp [joinPath]
  | cons k rest ih =>
      intro pre h
      simp only [joinPath]
      rw [ih (joinKey pre k) (joinKey_ne_empty h)]
      rw [joinKey, if_neg h]
      cases rest with
      | nil => simp [jsJoin]
      | cons r t =>
          rw [if_neg (by simp), if_neg (by simp), jsJoin_cons₂]
          simp [String.append_assoc]

theorem joinPath_empty_root (k : String) (rest : List String) (hk : k ≠ "") :
    joinPath "" (k :: rest) = jsJoin "." (k :: rest) := by
  have h1 : joinKey "" k = k := by simp [joinKey]
  show joinPath (joinKey "" k) rest = jsJoin "." (k :: rest)
  rw [h1, joinPath_of_ne rest k hk]
  cases rest with
  | nil => simp [jsJoin]
  | cons r t => rw [if_neg (by simp), jsJoin_cons₂]

theorem jsSplit_jsJoin (c : Char) (sep : String) (hsep : sep.data = [c]) :
    ∀ (parts : List String), parts ≠ [] → (∀ p ∈ parts, ¬ c ∈ p.data) →
      jsSplit c (jsJoin sep parts) = parts := by
  intro parts
  induction parts with
  | nil => intro h; cases h rfl
  | cons p rest ih =>
      intro _ hfree
      have hpfree : ∀ x ∈ p.data, ¬ (x == c) = true := by
        intro x hx
        simp only [beq_iff_eq]
        exact fun he => hfree p (List.mem_cons_self _ _) (he ▸ hx)
      cases rest with
      | nil =>
          simp only [jsJoin, jsSplit]
          rw [show p.data.splitOn c = List.splitOnP (· == c) p.data from by
                simp only [List.splitOn],
              List.splitOnP_eq_single _ _ hpfree]
          rfl
      | cons q t =>
          have hjoin : (jsJoin sep (p :: q :: t)).data =
              p.data ++ c :: (jsJoin sep (q :: t)).data := by
            rw [jsJoin_cons₂, String.data_append, String.data_append, hsep]
            simp
          simp only [jsSplit, hjoin]
          rw [show (p.data ++ c :: (jsJoin sep (q :: t)).data).splitOn c =
                List.splitOnP (· == c) (p.data ++ c :: (jsJoin sep (q :: t)).data) from by
                simp only [List.splitOn],
              List.splitOnP_first _ p.data hpfree c (by simp) _]
          simp only [List.map_cons]
          have htail : List.map (fun l => String.mk l)
              (List.splitOnP (· == c) (jsJoin sep (q :: t)).data) = q :: t := by
            have := ih (by simp) (fun p' hp' => hfree p' (List.mem_cons_of_mem _ hp'))
            simpa [jsSplit, show ∀ l : List Char, l.splitOn c = List.splitOnP (· == c) l from
              fun l => by simp only [List.splitOn]] using this
          rw [htail]

theorem mem_data_jsJoin {c : Char} {sep : String} :
    ∀ {parts : List String}, c ∈ (jsJoin sep parts).data →
      c ∈ sep.data ∨ ∃ p ∈ parts, c ∈ p.data := by
  intro parts
  induction parts with
  | nil => intro h; simp [jsJoin] at h
  | cons p rest ih =>
      cases rest with
      | nil =>
          intro h
          exact Or.inr ⟨p, List.mem_cons_self _ _, by simpa [jsJoin] using h⟩
      | cons q t =>
          intro h
          rw [jsJoin_cons₂, String.data_append, String.data_append] at h
          rcases List.mem_append.mp h with h | h
          · rcases List.mem_append.mp h with h | h
            · exact Or.inr ⟨p, List.mem_cons_self _ _, h⟩
            · exact Or.inl h
          · rcases ih h with h | ⟨p', hp', hc⟩
            · exact Or.inl h
            · exact Or.inr ⟨p', List.mem_cons_of_mem _ hp', hc⟩

theorem goodKey_spec {k : String} (h : goodKey k = true) :
    k ≠ "" ∧ ¬ '.' ∈ k.data ∧ ¬ ',' ∈ k.data ∧ ¬ '\n' ∈ k.data := by
  simpa [goodKey, Bool.and_eq_true, decide_eq_true_eq, and_assoc] using h

theorem goodLeaf_spec {v : Json} (h : goodLeaf v = true) :
    ¬ ',' ∈ (renderLeaf v).data ∧ ¬ '\n' ∈ (renderLeaf v).data := by
  simpa [goodLeaf, Bool.and_eq_true, decide_eq_true_eq] using h

theorem joinPath_empty_eq_jsJoin {fs : List (String × Json)} {path : List String} {leaf : Json}
    (hg : goodJson (.obj fs) = true) (h : LeafAt (.obj fs) path leaf) :
    joinPath "" path = jsJoin "." path := by
  obtain ⟨k, rest, rfl⟩ : ∃ k rest, path = k :: rest := by
    cases h with
    | here hm ho => exact ⟨_, _, rfl⟩
    | there hm ho hl => exact ⟨_, _, rfl⟩
  have hgood : goodKey k = true := (leafAt_good h hg).1 k (List.mem_cons_self _ _)
  exact joinPath_empty_root k rest (goodKey_spec hgood).1

theorem csvHeaders_char {fs : List (String × Json)} (hg : goodJson (.obj fs) = true)
    {x : String} (hx : x ∈ csvHeaders (.obj fs)) :
    ∃ path leaf, x = jsJoin "." path ∧ LeafAt (.obj fs) path leaf := by
  rw [mem_csvHeaders hg] at hx
  obtain ⟨path, leaf, rfl, hleaf⟩ := exists_leafAt_of_mem_aux (sizeOf fs) fs le_rfl "" _ hx
  exact ⟨path, leaf, joinPath_empty_eq_jsJoin hg hleaf, hleaf⟩

theorem headers_comma_free {fs : List (String × Json)} (hg : goodJson (.obj fs) = true)
    {x : String} (hx : x ∈ csvHeaders (.obj fs)) : ¬ ',' ∈ x.data := by
  obtain ⟨path, leaf, rfl, hleaf⟩ := csvHeaders_char hg hx
  intro hc
  rcases mem_data_jsJoin hc with h | ⟨p, hp, hc'⟩
  · simp at h
  · exact (goodKey_spec ((leafAt_good hleaf hg).1 p hp)).2.2.1 hc'

theorem cell_eval {fs : List (String × Json)} (hg : goodJson (.obj fs) = true)
    {path : List String} {leaf : Json} (hleaf : LeafAt (.obj fs) path leaf) :
    renderCell (getValue (.obj fs) (jsJoin "." path)) = renderLeaf leaf := by
  obtain ⟨k, rest, rfl⟩ : ∃ k rest, path = k :: rest := by
    cases hleaf with
    | here hm ho => exact ⟨_, _, rfl⟩
    | there hm ho hl => exact ⟨_, _, rfl⟩
  have hkeys := (leafAt_good hleaf hg).1
  have hsplit : jsSplit '.' (jsJoin "." (k :: rest)) = k :: rest :=
    jsSplit_jsJoin '.' "." rfl _ (by simp) (fun p hp => (goodKey_spec (hkeys p hp)).2.1)
  unfold getValue
  rw [hsplit, reducePath_of_leafAt hleaf hg,
    renderCell_eq_renderLeaf (leafAt_not_objectLike hleaf)]

theorem row_cells_comma_free {fs : List (String × Json)} (hg : goodJson (.obj fs) = true)
    {y : String} (hy : y ∈ csvRow (.obj fs)) : ¬ ',' ∈ y.data := by
  rw [show csvRow (.obj fs) =
      (csvHeaders (.obj fs)).map (fun h => renderCell (getValue (.obj fs) h)) from rfl] at hy
  obtain ⟨x, hx, rfl⟩ := List.mem_map.mp hy
  obtain ⟨path, leaf, rfl, hleaf⟩ := csvHeaders_char hg hx
  rw [cell_eval hg hleaf]
  exact (goodLeaf_spec (leafAt_good hleaf hg).2).1

/-- Claim C3 (amended): for every array-free payload that is an object whose
keys (at every level) are pairwise distinct, nonempty and free of `.`, `,`
and newline, and whose leaf values render free of `,` and newline, the
flatten-and-serialize routine emits a header line and a data line with the
same number of comma-separated fields, and every leaf value appears,
unescaped, in the data line at every field position holding its dot-joined
path in the header line (resolved `null` rendering as the empty string).
The restrictions on keys and rendered values are forced: a key containing a
dot already defeats the lookup (see the counterexample), and a comma in a
key or value shifts the field positions. -/
theorem convertToCSV_roundtrip (p : Json) (hobj : p.isObj = true) (hg : goodJson p = true) :
    (jsSplit ',' (csvHeaderLine p)).length = (jsSplit ',' (csvDataLine p)).length ∧
    ∀ path leaf, LeafAt p path leaf →
      ∃ i, (jsSplit ',' (csvHeaderLine p)).get? i = some (jsJoin "." path) ∧
           (jsSplit ',' (csvDataLine p)).get? i = some (renderLeaf leaf) := by
  obtain ⟨fs, rfl⟩ : ∃ fs, p = Json.obj fs := by
    cases p with
    | obj fs => exact ⟨fs, rfl⟩
    | null => simp [Json.isObj] at hobj
    | bool b => simp [Json.isObj] at hobj
    | num n => simp [Json.isObj] at hobj
    | str s => simp [Json.isObj] at hobj
    | arr xs => simp [Json.isObj] at hobj
  by_cases hnil : csvHeaders (.obj fs) = []
  · constructor
    · simp [csvHeaderLine, csvDataLine, csvRow, hnil, jsJoin]
    · intro path leaf hleaf
      exfalso
      have hm := mem_leafPaths_of_leafAt hleaf ""
      simp only [leafPathsO] at hm
      rw [← mem_csvHeaders hg, hnil] at hm
      cases hm
  · have hsplitH : jsSplit ',' (csvHeaderLine (.obj fs)) = csvHeaders (.obj fs) :=
      jsSplit_jsJoin ',' "," rfl _ hnil (fun x hx => headers_comma_free hg hx)
    have hrow_ne : csvRow (.obj fs) ≠ [] := by
      simp only [csvRow, ne_eq, List.map_eq_nil_iff]
      exact hnil
    have hsplitD : jsSplit ',' (csvDataLine (.obj fs)) = csvRow (.obj fs) :=
      jsSplit_jsJoin ',' "," rfl _ hrow_ne (fun y hy => row_cells_comma_free hg hy)
    constructor
    · rw [hsplitH, hsplitD]
      simp [csvRow]
    · intro path leaf hleaf
      have hmemh : jsJoin "." path ∈ csvHeaders (.obj fs) := by
        have hm := mem_leafPaths_of_leafAt hleaf ""
        simp only [leafPathsO] at hm
        rw [joinPath_empty_eq_jsJoin hg hleaf] at hm
        rw [mem_csvHeaders hg]
        exact hm
      obtain ⟨i, hi⟩ := List.get?_of_mem hmemh
      refine ⟨i, by rw [hsplitH]; exact hi, ?_⟩
      rw [hsplitD]
      have hmap : (csvRow (.obj fs)).get? i =
          ((csvHeaders (.obj fs)).get? i).map
            (fun h => renderCell (getValue (.obj fs) h)) := by
        simp [csvRow, List.get?_map]
      rw [hmap, hi]
      simp only [Option.map_some']
      rw [cell_eval hg hleaf]

/-- Claim C3, counterexample to the claim as stated: the array-free,
bounded-depth payload `{"a.b": 1}` has the leaf `1` at the (single-key)
path `a.b`; the header line carries the field `a.b`, but the data line's
field there is the empty string, because `getValue` splits the header on
dots and finds nothing under `a` — the leaf value `1` never appears in the
data line. -/
theorem convertToCSV_dotkey_cex :
    LeafAt (.obj [("a.b", .num 1)]) ["a.b"] (.num 1) ∧
    arrayFree (.obj [("a.b", .num 1)]) = true ∧
    csvHeaderLine (.obj [("a.b", .num 1)]) = "a.b" ∧
    csvDataLine (.obj [("a.b", .num 1)]) = "" ∧
    renderLeaf (.num 1) = "1" ∧
    ¬ ∃ i, (jsSplit ',' (csvHeaderLine (.obj [("a.b", .num 1)]))).get? i =
             some (jsJoin "." ["a.b"]) ∧
           (jsSplit ',' (csvDataLine (.obj [("a.b", .num 1)]))).get? i =
             some (renderLeaf (.num 1)) := by
  refine ⟨.here (List.mem_singleton.mpr rfl) rfl, rfl, rfl, rfl, rfl, ?_⟩
  rintro ⟨i, h1, h2⟩
  have hH : jsSplit ',' (csvHeaderLine (.obj [("a.b", .num 1)])) = ["a.b"] := rfl
  have hD : jsSplit ',' (csvDataLine (.obj [("a.b", .num 1)])) = [""] := rfl
  rw [hD] at h2
  cases i with
  | zero =>
      rw [show ([""] : List String).get? 0 = some "" from rfl] at h2
      have : ("" : String) = "1" := by injection h2
      exact absurd this (by decide)
  | succ n =>
      rw [show ([""] : List String).get? (n + 1) = none from by simp] at h2
      cases h2

theorem convertToCSV_roundtrip_witness :
    (Json.obj [("a", .obj [("b", .num 1)]), ("c", .str "x")]).isObj = true ∧
    goodJson (.obj [("a", .obj [("b", .num 1)]), ("c", .str "x")]) = true ∧
    ((jsSplit ',' (csvHeaderLine (.obj [("a", .obj [("b", .num 1)]), ("c", .str "x")]))).length =
       (jsSplit ',' (csvDataLine (.obj [("a", .obj [("b", .num 1)]), ("c", .str "x")]))).length ∧
     ∀ path leaf, LeafAt (.obj [("a", .obj [("b", .num 1)]), ("c", .str "x")]) path leaf →
       ∃ i, (jsSplit ',' (csvHeaderLine (.obj [("a", .obj [("b", .num 1)]), ("c", .str "x")]))).get? i =
              some (jsJoin "." path) ∧
            (jsSplit ',' (csvDataLine (.obj [("a", .obj [("b", .num 1)]), ("c", .str "x")]))).get? i =
              some (renderLeaf leaf)) :=
  ⟨by decide, by decide,
   convertToCSV_roundtrip (.obj [("a", .obj [("b", .num 1)]), ("c", .str "x")])
     (by decide) (by decide)⟩
